import Mathlib

/-!
Verification development for the `ytsr` YouTube-search library.

The TypeScript sources are shallowly embedded below:
* a `Json` inductive models parsed JSON values; the zod schema parsers of
  `src/unnamed/part_000` become `Json -> Option _` functions;
* `src/src/parseItem.ts` becomes `parseItemModel` and friends;
* the orchestration in `src/unnamed/part_001` (`ytsr`, `parsePage2`,
  `saveCache`, the module-level `CACHE`) becomes `ytsrModel`,
  `parsePage2Model`, `saveCacheModel`, `initialCache`, with the network
  abstracted as an explicit environment `Env`.

JavaScript machine numbers are modelled as `Int` plus an explicit `NaN`
marker (`JsNum`); the builtin `Number()` string coercion is modelled for
integer-shaped strings (`jsNumber`), which covers every string the library
feeds to it after its digit-filtering step.
-/

set_option maxHeartbeats 1000000
set_option maxRecDepth 8192

namespace Ytsr

attribute [local semireducible] Rat.sub Rat.add Rat.mul Rat.inv Rat.ofScientific

/-- A parsed JSON value (result of `JSON.parse` / a fetch body). -/
inductive Json where
  | null : Json
  | bool (b : Bool) : Json
  | num (n : Int) : Json
  | str (s : String) : Json
  | arr (elems : List Json) : Json
  | obj (fields : List (String × Json)) : Json

/-- First field with the given key, if the value is an object (JS property read). -/
def Json.getField : Json → String → Option Json
  | .obj fs, k => (fs.find? (fun p => p.1 == k)).map (·.2)
  | _, _ => none

/-- Whether the value is a JS object (zod parsed-type "object"). -/
def Json.isObj : Json → Bool
  | .obj _ => true
  | _ => false

/-- JS truthiness of a JSON value. -/
def Json.truthy : Json → Bool
  | .null => false
  | .bool b => b
  | .num n => n != 0
  | .str s => s != ""
  | .arr _ => true
  | .obj _ => true

/-- A JS number: either a proper number (modelled as a rational, which
covers every double the library's arithmetic produces exactly) or NaN. -/
inductive JsNum where
  | nan : JsNum
  | num (v : ℚ) : JsNum
deriving DecidableEq

/-- Whether a JS number is NaN. -/
def JsNum.isNaN : JsNum → Bool
  | .nan => true
  | .num _ => false

/-- Numeric value of a list of decimal digit characters. -/
def digitsVal (cs : List Char) : ℚ :=
  cs.foldl (fun a c => a * 10 + ((c.toNat - 48 : ℕ) : ℚ)) 0

/-- The builtin `Number()` coercion on strings, modelled for integer-shaped
strings: a string of decimal digits (including the empty string, which
coerces to 0) yields its value, anything else yields NaN.  Signs, decimals
and surrounding whitespace are not modelled; the library only applies
`Number` to digit-filtered strings or to raw upstream count strings. -/
def jsNumber (s : String) : JsNum :=
  if s.data.all Char.isDigit then .num (digitsVal s.data) else .nan

/-- `s.replace(/\D+/g, '')`: keep only the decimal digits, in order. -/
def digitsOnly (s : String) : String :=
  ⟨s.data.filter Char.isDigit⟩

/-- Substring test, used to model `JSON.stringify(x).includes(pat)`. -/
def containsSub (s pat : String) : Bool :=
  (s.splitOn pat).length != 1

mutual

/-- `JSON.stringify` modelled without escape sequences (the strings the
library stringifies are badge labels and tooltips without quotes). -/
def jsonStringify : Json → String
  | .null => "null"
  | .bool b => if b then "true" else "false"
  | .num n => toString n
  | .str s => "\"" ++ s ++ "\""
  | .arr es => "[" ++ jsonStringifyElems es ++ "]"
  | .obj fs => "\x7b" ++ jsonStringifyFields fs ++ "\x7d"

/-- Comma-separated stringification of array elements. -/
def jsonStringifyElems : List Json → String
  | [] => ""
  | [x] => jsonStringify x
  | x :: xs => jsonStringify x ++ "," ++ jsonStringifyElems xs

/-- Comma-separated stringification of object fields. -/
def jsonStringifyFields : List (String × Json) → String
  | [] => ""
  | [(k, v)] => "\"" ++ k ++ "\":" ++ jsonStringify v
  | (k, v) :: fs => "\"" ++ k ++ "\":" ++ jsonStringify v ++ "," ++ jsonStringifyFields fs

end

/-- `parseText` of `src/unnamed/part_000`: a `YouTubeTextSchema` value is
either `{simpleText}` or `{runs: [{text}]}`; anything else (including a
missing value) yields the empty string. -/
def parseTextRunTexts : List Json → Option (List String)
  | [] => some []
  | r :: rs =>
      match r.getField "text" with
      | some (.str t) => (parseTextRunTexts rs).map (t :: ·)
      | _ => none

/-- Model of `parseText` (`none` stands for a JS `undefined` argument). -/
def parseTextModel (txt : Option Json) : String :=
  match txt with
  | none => ""
  | some j =>
      match j.getField "simpleText" with
      | some (.str s) => s
      | _ =>
          match j.getField "runs" with
          | some (.arr rs) =>
              match parseTextRunTexts rs with
              | some ts => String.join ts
              | none => ""
          | _ => ""

/-- Model of `parseIntegerFromText`: a plain string goes straight through
`Number`, any other value is run through `parseText` and digit-filtered. -/
def parseIntegerFromTextModel (x : Json) : JsNum :=
  match x with
  | .str s => jsNumber s
  | _ => jsNumber (digitsOnly (parseTextModel (some x)))

/-- Base URL constants of the sources. -/
def baseUrl : String := "https://www.youtube.com/"

/-- `BASE_VIDEO_URL` of `parseItem.ts`. -/
def baseVideoUrl : String := "https://www.youtube.com/watch?v="

/-- WHATWG `new URL(u, base).toString()` modelled for the URL shapes that
occur in upstream payloads: absolute URLs pass through, protocol-relative
and host-relative references are resolved against the fixed youtube base.
Percent-encoding is left untouched. -/
def urlResolve (u : String) : String :=
  if u.startsWith "https://" || u.startsWith "http://" then u
  else if u.startsWith "//" then "https:" ++ u
  else if u.startsWith "/" then "https://www.youtube.com" ++ u
  else baseUrl ++ u

/-- A normalized image (`ImageSchema`): `url` is `null` when the raw url was
empty. -/
structure Image where
  url : Option String
  width : Int
  height : Int
deriving DecidableEq

/-- A raw thumbnail entry after zod validation (`url`, `width`, `height`). -/
structure ImgRaw where
  url : String
  width : Int
  height : Int
deriving DecidableEq

/-- zod parse of one element of a `thumbnails` array
(`YouTubeImageSchema` / the inner object of `YouTubeThumbnailSchemas`). -/
def parseImgRaw (j : Json) : Option ImgRaw :=
  match j.getField "url", j.getField "width", j.getField "height" with
  | some (.str u), some (.num w), some (.num h) => some ⟨u, w, h⟩
  | _, _, _ => none

/-- zod parse of a whole `thumbnails` array; any invalid element fails the
array (`z.array`). -/
def parseImgList : List Json → Option (List ImgRaw)
  | [] => some []
  | j :: js =>
      match parseImgRaw j with
      | some i => (parseImgList js).map (i :: ·)
      | none => none

/-- `prepImg` of `src/unnamed/part_000` applied to already-validated raw
images: resolve the url (empty url becomes `null`) and stable-sort the
result by descending width (JS `Array.prototype.sort` is stable). -/
def prepImgModel (l : List ImgRaw) : List Image :=
  let imgs := l.map (fun i =>
    Image.mk (if i.url != "" then some (urlResolve i.url) else none) i.width i.height)
  imgs.mergeSort (fun a b => decide (b.width ≤ a.width))

/-- A parsed metadata badge: label, optional tooltip, and the original JSON
(the code runs `JSON.stringify` over the passthrough-parsed badges). -/
structure BadgeM where
  label : String
  tooltip : Option String
  orig : Json

/-- zod parse of `YouTubeMetadataBadgeSchema` (passthrough). -/
def parseBadge (j : Json) : Option BadgeM :=
  match j.getField "metadataBadgeRenderer" with
  | some mb =>
      match mb.getField "label" with
      | some (.str l) =>
          match mb.getField "tooltip" with
          | none => some ⟨l, none, j⟩
          | some (.str t) => some ⟨l, some t, j⟩
          | some _ => none
      | _ => none
  | none => none

/-- zod parse of an array of metadata badges. -/
def parseBadgeList : List Json → Option (List BadgeM)
  | [] => some []
  | j :: js =>
      match parseBadge j with
      | some b => (parseBadgeList js).map (b :: ·)
      | none => none

/-- A parsed `navigationEndpoint`: required `browseEndpoint.browseId`,
optional `canonicalBaseUrl`, optional `commandMetadata.webCommandMetadata`
with its own optional `url`. -/
structure NavM where
  browseId : String
  canonicalBaseUrl : Option String
  cmUrl : Option (Option String)
deriving DecidableEq

/-- Continuation of `parseNav`: the optional `commandMetadata` part. -/
def parseNavCm (j : Json) (bid : String) (cb : Option String) : Option NavM :=
  match j.getField "commandMetadata" with
  | none => some ⟨bid, cb, none⟩
  | some cm =>
      match cm.getField "webCommandMetadata" with
      | some wcm =>
          if wcm.isObj then
            match wcm.getField "url" with
            | some (.str u) => some ⟨bid, cb, some (some u)⟩
            | none => some ⟨bid, cb, some none⟩
            | some _ => none
          else none
      | none => none

/-- zod parse of `YouTubeNavigationEndpointSchema`. -/
def parseNav (j : Json) : Option NavM :=
  match j.getField "browseEndpoint" with
  | some be =>
      match be.getField "browseId" with
      | some (.str bid) =>
          match be.getField "canonicalBaseUrl" with
          | some (.str cb) => parseNavCm j bid (some cb)
          | none => parseNavCm j bid none
          | some _ => none
      | _ => none
  | none => none

/-- A parsed owner run (`{text, navigationEndpoint}`). -/
structure RunM where
  text : String
  nav : NavM
deriving DecidableEq

/-- zod parse of one `runs` entry with a required navigation endpoint. -/
def parseRun (j : Json) : Option RunM :=
  match j.getField "text" with
  | some (.str t) =>
      match j.getField "navigationEndpoint" with
      | some ne => (parseNav ne).map (RunM.mk t)
      | none => none
  | _ => none

/-- zod parse of a full `runs` array with navigation endpoints. -/
def parseRunList : List Json → Option (List RunM)
  | [] => some []
  | j :: js =>
      match parseRun j with
      | some r => (parseRunList js).map (r :: ·)
      | none => none

/-- A value that zod validated as `z.union([z.string(), z.number()])`. -/
inductive StrOrNum where
  | s (v : String) : StrOrNum
  | n (v : Int) : StrOrNum
deriving DecidableEq

/-- Required string field of an object. -/
def reqStrField (j : Json) (k : String) : Option String :=
  match j.getField k with
  | some (.str s) => some s
  | _ => none

/-- Optional field validated as `z.union([z.string(), z.object({}).passthrough()])`:
absent is fine, present must be a string or an object (kept whole). -/
def optTextLikeField (j : Json) (k : String) : Option (Option Json) :=
  match j.getField k with
  | none => some none
  | some (.str s) => some (some (.str s))
  | some (.obj fs) => some (some (.obj fs))
  | some _ => none

/-- All-or-nothing collection of optional values (`z.array(z.string())`
applied to a list of possibly-missing tooltips). -/
def allSome : List (Option String) → Option (List String)
  | [] => some []
  | some x :: xs => (allSome xs).map (x :: ·)
  | none :: _ => none

/-- One element of `thumbnailOverlays`: a passthrough object whose optional
`thumbnailOverlayTimeStatusRenderer` must carry a text-like `text`. The
parse result records that text when the renderer key is present. -/
def parseOverlay (j : Json) : Option (Option Json) :=
  match j with
  | .obj _ =>
      match j.getField "thumbnailOverlayTimeStatusRenderer" with
      | none => some none
      | some o =>
          match o.getField "text" with
          | some (.str s) => some (some (.str s))
          | some (.obj fs) => some (some (.obj fs))
          | _ => none
  | _ => none

/-- zod parse of a `thumbnailOverlays` array. -/
def parseOverlayList : List Json → Option (List (Option Json))
  | [] => some []
  | j :: js =>
      match parseOverlay j with
      | some o => (parseOverlayList js).map (o :: ·)
      | none => none

/-- The parsed form of `YouTubeVideoRendererSchema`. -/
structure VRModel where
  videoId : String
  title : Option Json := none
  lengthText : Option Json := none
  thumbnails : List ImgRaw := []
  overlays : Option (List (Option Json)) := none
  badges : Option (List BadgeM) := none
  upcomingStartTime : Option String := none
  descriptionSnippet : Option Json := none
  viewCountText : Option Json := none
  publishedTimeText : Option Json := none
  channelThumbs : Option (List ImgRaw) := none
  ownerRuns : Option (List RunM) := none
  ownerBadges : Option (List BadgeM) := none

/-- zod parse of `YouTubeVideoRendererSchema` over a JSON value. -/
def parseVRJson (j : Json) : Option VRModel := do
  let videoId ← reqStrField j "videoId"
  let title ← optTextLikeField j "title"
  let lengthText ← optTextLikeField j "lengthText"
  let thumbnails ←
    match j.getField "thumbnail" with
    | some th =>
        match th.getField "thumbnails" with
        | some (.arr l) => parseImgList l
        | _ => none
    | none => none
  let overlays ←
    match j.getField "thumbnailOverlays" with
    | none => some none
    | some (.arr l) => (parseOverlayList l).map some
    | some _ => none
  let badges ←
    match j.getField "badges" with
    | none => some none
    | some (.arr l) => (parseBadgeList l).map some
    | some _ => none
  let upcomingStartTime ←
    match j.getField "upcomingEventData" with
    | none => some none
    | some u => (reqStrField u "startTime").map some
  let descriptionSnippet ← optTextLikeField j "descriptionSnippet"
  let viewCountText ← optTextLikeField j "viewCountText"
  let publishedTimeText ← optTextLikeField j "publishedTimeText"
  let channelThumbs ←
    match j.getField "channelThumbnailSupportedRenderers" with
    | none => some none
    | some c =>
        match c.getField "channelThumbnailWithLinkRenderer" with
        | some cl =>
            match cl.getField "thumbnail" with
            | some th =>
                match th.getField "thumbnails" with
                | some (.arr l) => (parseImgList l).map some
                | _ => none
            | _ => none
        | _ => none
  let ownerRuns ←
    match j.getField "ownerText" with
    | none => some none
    | some ot =>
        match ot.getField "runs" with
        | some (.arr l) => (parseRunList l).map some
        | _ => none
  let ownerBadges ←
    match j.getField "ownerBadges" with
    | none => some none
    | some (.arr l) => (parseBadgeList l).map some
    | some _ => none
  some ⟨videoId, title, lengthText, thumbnails, overlays, badges, upcomingStartTime,
    descriptionSnippet, viewCountText, publishedTimeText, channelThumbs, ownerRuns, ownerBadges⟩

/-- The parsed form of `shortBylineText`. -/
structure ShortByline where
  simpleText : Option String := none
  runs : Option (List RunM) := none
deriving DecidableEq

/-- The parsed form of `YouTubePlaylistRendererSchema`. -/
structure PRModel where
  playlistId : String
  title : Option Json := none
  videoCount : Option StrOrNum := none
  publishedTimeText : Option Json := none
  shortByline : Option ShortByline := none
  longRuns : Option (List RunM) := none
  ownerBadges : Option (List BadgeM) := none

/-- zod parse of `YouTubePlaylistRendererSchema` over a JSON value. -/
def parsePRJson (j : Json) : Option PRModel := do
  let playlistId ← reqStrField j "playlistId"
  let title ← optTextLikeField j "title"
  let videoCount ←
    match j.getField "videoCount" with
    | none => some none
    | some (.str s) => some (some (.s s))
    | some (.num v) => some (some (.n v))
    | some _ => none
  let publishedTimeText ← optTextLikeField j "publishedTimeText"
  let shortByline ←
    match j.getField "shortBylineText" with
    | none => some none
    | some sb =>
        if sb.isObj then do
          let st ←
            match sb.getField "simpleText" with
            | none => some none
            | some (.str s) => some (some s)
            | some _ => none
          let rs ←
            match sb.getField "runs" with
            | none => some none
            | some (.arr l) => (parseRunList l).map some
            | some _ => none
          some (some ⟨st, rs⟩)
        else none
  let longRuns ←
    match j.getField "longBylineText" with
    | none => some none
    | some lb =>
        match lb.getField "runs" with
        | some (.arr l) => (parseRunList l).map some
        | _ => none
  let ownerBadges ←
    match j.getField "ownerBadges" with
    | none => some none
    | some (.arr l) => (parseBadgeList l).map some
    | some _ => none
  some ⟨playlistId, title, videoCount, publishedTimeText, shortByline, longRuns, ownerBadges⟩

/-- A normalized author (`AuthorSchema`). -/
structure Author where
  name : String
  channelID : String
  url : String
  bestAvatar : Option Image
  avatars : List Image
  ownerBadges : List String
  verified : Bool
deriving DecidableEq

/-- A normalized video (`VideoSchema`); `views`, `upcoming` hold proper
numbers only — a NaN there makes the whole schema parse fail. -/
structure Video where
  name : String
  id : String
  url : String
  thumbnail : String
  thumbnails : List Image
  isUpcoming : Bool
  upcoming : Option ℚ
  isLive : Bool
  badges : List String
  author : Option Author
  description : String
  views : Option ℚ
  duration : String
  uploadedAt : String
deriving DecidableEq

/-- A normalized playlist (`PlaylistSchema`). -/
structure Playlist where
  id : String
  name : String
  url : String
  owner : Option Author
  publishedAt : String
  length : ℚ
deriving DecidableEq

/-- A normalized search item, tagged like the `type` discriminator. -/
inductive Item where
  | video (v : Video) : Item
  | playlist (p : Playlist) : Item
deriving DecidableEq

/-- The `type` discriminator of a normalized item. -/
def Item.typeTag : Item → String
  | .video _ => "video"
  | .playlist _ => "playlist"

/-- The effective url of a `commandMetadata.webCommandMetadata`. -/
def cmUrlVal (nav : NavM) : Option String :=
  match nav.cmUrl with
  | some (some u) => some u
  | _ => none

/-- `canonicalBaseUrl || commandMetadata?.webCommandMetadata?.url` with JS
falsiness of the empty string. -/
def authorUrlRaw (nav : NavM) : Option String :=
  match nav.canonicalBaseUrl with
  | some u => if u != "" then some u else cmUrlVal nav
  | none => cmUrlVal nav

/-- `JSON.stringify(ownerBadges)` on the passthrough-parsed badge array. -/
def badgesStringify (bs : List BadgeM) : String :=
  jsonStringify (Json.arr (bs.map (·.orig)))

/-- Model of `parseAuthor` of `parseItem.ts`. -/
def parseAuthorModel (vr : VRModel) : Option Author :=
  let thumbs := vr.channelThumbs.getD []
  let obStr := vr.ownerBadges.map badgesStringify
  let isOfficial := match obStr with | some s => containsSub s "OFFICIAL" | none => false
  let isVerified := match obStr with | some s => containsSub s "VERIFIED" | none => false
  match vr.ownerRuns with
  | some (r :: _) =>
      (match authorUrlRaw r.nav with
      | some u =>
          if u != "" && r.nav.browseId != "" then
            match allSome ((vr.ownerBadges.getD []).map (·.tooltip)) with
            | some ts =>
                some ⟨r.text, r.nav.browseId, urlResolve u, (prepImgModel thumbs).head?,
                  prepImgModel thumbs, ts, isOfficial || isVerified⟩
            | none => none
          else none
      | none => none)
  | _ => none

/-- Model of `parseVideo` of `parseItem.ts`. -/
def parseVideoModel (vr : VRModel) : Option Video :=
  let badges := (vr.badges.getD []).map (·.label)
  let isLive := badges.any (fun b => b == "LIVE NOW" || b == "LIVE")
  let upcoming : Option JsNum := vr.upcomingStartTime.map (fun st => jsNumber (st ++ "000"))
  let overlayText : Option Json :=
    match (vr.overlays.getD []).find? (·.isSome) with
    | some (some t) => some t
    | _ => none
  let lengthJ : Option Json :=
    match vr.lengthText with
    | some lj => if lj.truthy then some lj else overlayText
    | none => overlayText
  let views : Option JsNum :=
    match vr.viewCountText with
    | some vt => if vt.truthy then some (parseIntegerFromTextModel vt) else none
    | none => none
  if views.any JsNum.isNaN || upcoming.any JsNum.isNaN then none
  else
    some
      { name := parseTextModel vr.title
        id := vr.videoId
        url := baseVideoUrl ++ vr.videoId
        thumbnail := ((prepImgModel vr.thumbnails).head?.bind (·.url)).getD ""
        thumbnails := prepImgModel vr.thumbnails
        isUpcoming := match upcoming with | some (.num v) => v != 0 | _ => false
        upcoming := match upcoming with | some (.num v) => some v | _ => none
        isLive := isLive
        badges := badges
        author := parseAuthorModel vr
        description := parseTextModel vr.descriptionSnippet
        views := match views with | some (.num v) => some v | _ => none
        duration := parseTextModel lengthJ
        uploadedAt := parseTextModel vr.publishedTimeText }

/-- Model of `parseOwner` of `parseItem.ts`. -/
def parseOwnerModel (pr : PRModel) : Option Author :=
  let shortSimpleTruthy :=
    match pr.shortByline with
    | some sb => match sb.simpleText with | some s => s != "" | none => false
    | none => false
  if shortSimpleTruthy then none
  else
    let owner : Option RunM :=
      match (pr.shortByline.bind (·.runs)).bind List.head? with
      | some r => some r
      | none => pr.longRuns.bind List.head?
    match owner with
    | none => none
    | some r =>
        let obStr := pr.ownerBadges.map badgesStringify
        let isOfficial := match obStr with | some s => containsSub s "OFFICIAL" | none => false
        let isVerified := match obStr with | some s => containsSub s "VERIFIED" | none => false
        match authorUrlRaw r.nav with
        | some u =>
            if u != "" && r.nav.browseId != "" then
              match allSome ((pr.ownerBadges.getD []).map (·.tooltip)) with
              | some ts =>
                  some ⟨r.text, r.nav.browseId, urlResolve u, none, [], ts,
                    isOfficial || isVerified⟩
              | none => none
            else none
        | none => none

/-- Model of `parsePlaylist` of `parseItem.ts`: the `length` coercion
`Number(videoCount)` yields NaN for a missing count, which fails
`PlaylistSchema` and turns the whole item into `null`. -/
def parsePlaylistModel (pr : PRModel) : Option Playlist :=
  let len : JsNum :=
    match pr.videoCount with
    | none => .nan
    | some (.s v) => jsNumber v
    | some (.n v) => .num (v : ℚ)
  match len with
  | .nan => none
  | .num v =>
      some ⟨pr.playlistId, parseTextModel pr.title,
        "https://www.youtube.com/playlist?list=" ++ pr.playlistId,
        parseOwnerModel pr, parseTextModel pr.publishedTimeText, v⟩

/-- Model of `parseItem`: the `YouTubeItemSchema` union is tried in order
(`videoRenderer`, `playlistRenderer`, `gridVideoRenderer`); a variant whose
inner renderer fails to validate falls through to the next variant, and a
renderer that validates but fails entity normalization yields `null`. -/
def parseItemModel (j : Json) : Option Item :=
  match j with
  | .obj _ =>
      match (j.getField "videoRenderer").bind parseVRJson with
      | some vr => (parseVideoModel vr).map .video
      | none =>
          match (j.getField "playlistRenderer").bind parsePRJson with
          | some pr => (parsePlaylistModel pr).map .playlist
          | none =>
              match (j.getField "gridVideoRenderer").bind parseVRJson with
              | some vr => (parseVideoModel vr).map .video
              | none => none
  | _ => none

/-- The parse result of one element of a section list / rich grid
(`YouTubeRendererItemSchema`, a zod union tried in order).  The last union
variant `z.object({continuationItemRenderer: z.unknown()})` accepts any
object; `contOnly` records the original `continuationItemRenderer` value
when the key was present (zod omits an absent unknown key from its
output, so the later `'continuationItemRenderer' in x` test sees it only
when the input had it). -/
inductive RItem where
  | itemSection (contents : List Json) : RItem
  | richItem (content : Json) : RItem
  | richSection (content : Json) : RItem
  | contOnly (inner : Option Json) : RItem

/-- `z.array(z.record(z.unknown()))`: every element must be a plain object;
record-of-unknown validation returns the object unchanged. -/
def recordsParse (l : List Json) : Option (List Json) :=
  if l.all Json.isObj then some l else none

/-- zod parse of one `YouTubeRendererItemSchema` union element. -/
def parseRItem (j : Json) : Option RItem :=
  match j with
  | .obj _ =>
      match
        (match j.getField "itemSectionRenderer" with
        | some isr =>
            match isr.getField "contents" with
            | some (.arr l) => (recordsParse l).map RItem.itemSection
            | _ => none
        | none => none)
      with
      | some r => some r
      | none =>
          match
            (match j.getField "richItemRenderer" with
            | some rir =>
                match rir.getField "content" with
                | some (.obj fs) => some (RItem.richItem (.obj fs))
                | _ => none
            | none => none)
          with
          | some r => some r
          | none =>
              match
                (match j.getField "richSectionRenderer" with
                | some rsr =>
                    match rsr.getField "content" with
                    | some (.obj fs) => some (RItem.richSection (.obj fs))
                    | _ => none
                | none => none)
              with
              | some r => some r
              | none => some (RItem.contOnly (j.getField "continuationItemRenderer"))
  | _ => none

/-- zod parse of a whole renderer-item array. -/
def parseRItemList : List Json → Option (List RItem)
  | [] => some []
  | j :: js =>
      match parseRItem j with
      | some r => (parseRItemList js).map (r :: ·)
      | none => none

/-- The parse result of `YouTubePrimaryContentsSchema`: a section list or a
rich grid. -/
inductive PCParsed where
  | sectionList (elems : List RItem) : PCParsed
  | richGrid (elems : List RItem) : PCParsed

/-- zod parse of `YouTubePrimaryContentsSchema` (union tried in order). -/
def parsePrimaryContents (j : Json) : Option PCParsed :=
  match
    (match j.getField "sectionListRenderer" with
    | some slr =>
        match slr.getField "contents" with
        | some (.arr l) => (parseRItemList l).map PCParsed.sectionList
        | _ => none
    | none => none)
  with
  | some pc => some pc
  | none =>
      match j.getField "richGridRenderer" with
      | some rgr =>
          match rgr.getField "contents" with
          | some (.arr l) => (parseRItemList l).map PCParsed.richGrid
          | _ => none
      | none => none

/-- `YouTubeContinuationItemRendererSchema` applied to a kept
`continuationItemRenderer` value: digs out the nested token string. -/
def parseContinuationToken (inner : Option Json) : Option String :=
  match inner with
  | none => none
  | some v =>
      match v.getField "continuationEndpoint" with
      | some ce =>
          match ce.getField "continuationCommand" with
          | some cc => reqStrField cc "token"
          | none => none
      | none => none

/-- Whether a parsed renderer item is an item section. -/
def RItem.isItemSection : RItem → Bool
  | .itemSection _ => true
  | _ => false

/-- Whether the parsed element still carries a `continuationItemRenderer`
key (only union-variant-4 elements whose input had the key do). -/
def RItem.hasContKey : RItem → Bool
  | .contOnly (some _) => true
  | _ => false

/-- Core of `parseWrapper` on an already-validated primary-contents value.
Section lists take the first item section's contents and the first element
carrying a continuation key; rich grids unwrap `richItemRenderer` /
`richSectionRenderer` elements individually. -/
def parseWrapperCore (pc : PCParsed) : List Json × Option String :=
  match pc with
  | .sectionList elems =>
      let rawItems :=
        match elems.find? RItem.isItemSection with
        | some (.itemSection l) => l
        | _ => []
      let continuation :=
        match elems.find? RItem.hasContKey with
        | some (.contOnly inner) => parseContinuationToken inner
        | _ => none
      (rawItems, continuation)
  | .richGrid elems =>
      let rawItems := elems.filterMap (fun e =>
        match e with
        | .richItem c => some c
        | .richSection c => some c
        | _ => none)
      let continuation :=
        match elems.find? RItem.hasContKey with
        | some (.contOnly inner) => parseContinuationToken inner
        | _ => none
      (rawItems, continuation)

/-- Model of `parseWrapper` of `src/unnamed/part_000`: an unrecognized
top-level shape yields no items and no continuation. -/
def parseWrapperModel (j : Json) : List Json × Option String :=
  match parsePrimaryContents j with
  | none => ([], none)
  | some pc => parseWrapperCore pc

/-- Model of `parsePage2Response`: `onResponseReceivedCommands` must be an
array whose every element wraps `appendContinuationItemsAction.continuationItems`;
an empty command list (or any shape failure) yields `null`. -/
def parsePage2CommandList : List Json → Option (List (List Json))
  | [] => some []
  | j :: js =>
      match j.getField "appendContinuationItemsAction" with
      | some a =>
          match a.getField "continuationItems" with
          | some (.arr l) => (parsePage2CommandList js).map (l :: ·)
          | _ => none
      | none => none

/-- Model of `parsePage2Response` of `src/unnamed/part_000`. -/
def parsePage2ResponseModel (j : Json) : Option (List Json) :=
  match j.getField "onResponseReceivedCommands" with
  | some (.arr cmds) =>
      match parsePage2CommandList cmds with
      | some l =>
          match l with
          | [] => none
          | first :: _ => some first
      | none => none
  | _ => none

/-- One step of the `parsePage2Wrapper` loop over continuation items:
elements failing the union parse are skipped, item sections are flattened
in, rich wrappers are unwrapped, and each successfully parsed continuation
renderer overwrites the current continuation. -/
def parsePage2WrapperStep (acc : List Json × Option String) (ci : Json) :
    List Json × Option String :=
  match parseRItem ci with
  | none => acc
  | some (.itemSection l) => (acc.1 ++ l, acc.2)
  | some (.richItem c) => (acc.1 ++ [c], acc.2)
  | some (.richSection c) => (acc.1 ++ [c], acc.2)
  | some (.contOnly inner) =>
      match inner with
      | none => acc
      | some v =>
          match parseContinuationToken (some v) with
          | some tok => (acc.1, some tok)
          | none => acc

/-- Model of `parsePage2Wrapper` of `src/unnamed/part_000`. -/
def parsePage2WrapperModel (continuationItems : List Json) : List Json × Option String :=
  continuationItems.foldl parsePage2WrapperStep ([], none)

/-- The parse result of `YouTubeSearchResponseSchema`. -/
structure SearchResp where
  primaryContents : PCParsed
  estimatedResults : Option StrOrNum

/-- Model of `parseSearchResponse` of `src/unnamed/part_000`. -/
def parseSearchResponseModel (j : Json) : Option SearchResp :=
  match j.getField "contents" with
  | some cts =>
      match cts.getField "twoColumnSearchResultsRenderer" with
      | some tc =>
          match tc.getField "primaryContents" with
          | some pcJ =>
              match parsePrimaryContents pcJ with
              | some pc =>
                  match j.getField "estimatedResults" with
                  | none => some ⟨pc, none⟩
                  | some (.str s) => some ⟨pc, some (.s s)⟩
                  | some (.num v) => some ⟨pc, some (.n v)⟩
                  | some _ => none
              | none => none
          | none => none
      | none => none
  | none => none

/-- zod parse of one search-filter entry: digs out
`searchFilterRenderer.navigationEndpoint.searchEndpoint.params`. -/
def parseFilterParams (j : Json) : Option String :=
  match j.getField "searchFilterRenderer" with
  | some sfr =>
      match sfr.getField "navigationEndpoint" with
      | some ne =>
          match ne.getField "searchEndpoint" with
          | some se => reqStrField se "params"
          | none => none
      | none => none
  | none => none

/-- zod parse of a `filters` array. -/
def parseFilterList : List Json → Option (List String)
  | [] => some []
  | j :: js =>
      match parseFilterParams j with
      | some p => (parseFilterList js).map (p :: ·)
      | none => none

/-- zod parse of one search-filter group. -/
def parseGroup (j : Json) : Option (List String) :=
  match j.getField "searchFilterGroupRenderer" with
  | some gr =>
      match gr.getField "filters" with
      | some (.arr l) => parseFilterList l
      | _ => none
  | none => none

/-- zod parse of a `groups` array. -/
def parseGroupList : List Json → Option (List (List String))
  | [] => some []
  | j :: js =>
      match parseGroup j with
      | some g => (parseGroupList js).map (g :: ·)
      | none => none

/-- `YouTubeSearchHeaderSchema` applied to a response body: the params of
every filter of every group of the search-filter popup. -/
def parseHeaderGroups (j : Json) : Option (List (List String)) :=
  match j.getField "header" with
  | some h =>
      match h.getField "searchHeaderRenderer" with
      | some shr =>
          match shr.getField "searchFilterButton" with
          | some sfb =>
              match sfb.getField "buttonRenderer" with
              | some br =>
                  match br.getField "command" with
                  | some cmd =>
                      match cmd.getField "openPopupAction" with
                      | some opa =>
                          match opa.getField "popup" with
                          | some pp =>
                              match pp.getField "searchFilterOptionsDialogRenderer" with
                              | some dr =>
                                  match dr.getField "groups" with
                                  | some (.arr l) => parseGroupList l
                                  | _ => none
                              | none => none
                          | none => none
                      | none => none
                  | none => none
              | none => none
          | none => none
      | none => none
  | none => none

/-- The outbound request context (`DEFAULT_CONTEXT` shape). -/
structure Ctx where
  clientVersion : String
  gl : String
  hl : String
  utcOffsetMinutes : Int
  clientName : String
  enableSafetyMode : Option Bool
deriving DecidableEq

/-- The `ParsedBody` record threaded through `ytsr` (the unused `apiKey`
field is dropped). -/
structure ParsedBody where
  json : Option Json := none
  context : Option Ctx := none

/-- Model of `buildPostContext`: clone of `DEFAULT_CONTEXT` with the
client version and truthy option overrides applied (note that a zero
`utcOffsetMinutes` and empty locale strings are falsy and keep the
defaults). -/
def buildPostContextModel (clientVersion : String) (gl hl : Option String)
    (utc : Option Int) (safeSearch : Bool) : Ctx :=
  { clientVersion := clientVersion
    gl := match gl with | some g => if g != "" then g else "US" | none => "US"
    hl := match hl with | some h => if h != "" then h else "en" | none => "en"
    utcOffsetMinutes := match utc with | some u => if u != 0 then u else -300 | none => -300
    clientName := "WEB"
    enableSafetyMode := if safeSearch then some true else none }

/-- The process-wide session parameter cache, modelled as an association
list with `Map` semantics. -/
abbrev Cache := List (String × String)

/-- `Map.prototype.set`: replace an existing binding, else append. -/
def cacheSet (c : Cache) (k v : String) : Cache :=
  match c with
  | [] => [(k, v)]
  | p :: rest => if p.1 == k then (k, v) :: rest else p :: cacheSet rest k v

/-- `Map.prototype.delete`. -/
def cacheDel (c : Cache) (k : String) : Cache :=
  match c with
  | [] => []
  | p :: rest => if p.1 == k then cacheDel rest k else p :: cacheDel rest k

/-- `Map.prototype.has`. -/
def cacheHas (c : Cache) (k : String) : Bool :=
  match c with
  | [] => false
  | p :: rest => p.1 == k || cacheHas rest k

/-- `Map.prototype.get`. -/
def cacheGet (c : Cache) (k : String) : Option String :=
  match c with
  | [] => none
  | p :: rest => if p.1 == k then some p.2 else cacheGet rest k

/-- The module-level `CACHE` of `src/unnamed/part_001` as it is initialized
at process start: a `Map` preloaded with a hardcoded client version and
playlist-filter parameter. -/
def initialCache : Cache :=
  [("clientVersion", "2.20240606.06.00"), ("playlistParams", "EgIQAw%3D%3D")]

/-- The errors `ytsr` and `checkArgs` can throw, plus an opaque transport
failure. -/
inductive YtsrErr where
  | searchStringMandatory : YtsrErr
  | filterLinkNeedsQuery : YtsrErr
  | playlistSearchFailed : YtsrErr
  | transport : YtsrErr
  | unableToFindJson : YtsrErr
deriving DecidableEq

/-- Transport options: only the headers matter to the embedded logic. -/
structure ReqOpts where
  headers : List (String × String) := []
deriving DecidableEq

/-- Caller-supplied `SearchOptions`; `none` is an absent key.  `limit` is a
JS number (possibly NaN), `type` an arbitrary runtime string. -/
structure SearchOptions where
  safeSearch : Option Bool := none
  limit : Option JsNum := none
  hl : Option String := none
  gl : Option String := none
  utcOffsetMinutes : Option Int := none
  type : Option String := none
  requestOptions : Option ReqOpts := none
deriving DecidableEq

/-- The `NormalizedOptions` produced by `checkArgs`. -/
structure NormalizedOptions where
  limit : ℚ
  safeSearch : Bool
  type : String
  requestOptions : ReqOpts
  query : List (String × String)
  search : String
  gl : Option String := none
  hl : Option String := none
  utcOffsetMinutes : Option Int := none
deriving DecidableEq

/-- The limit normalization of `checkArgs`: NaN or non-positive limits
fall back to the default 10, and every other number — fractional ones
included — is kept unchanged. -/
def normLimit (options : SearchOptions) : ℚ :=
  match options.limit with
  | some (.num v) => if v ≤ 0 then 10 else v
  | some .nan => 10
  | none => 10

/-- `options.type` is valid only when it is exactly "video" or "playlist". -/
def typeValid (t : Option String) : Bool :=
  t == some "video" || t == some "playlist"

/-- Header-list update with `Headers.prototype.set` semantics. -/
def headersSet (hs : List (String × String)) (k v : String) : List (String × String) :=
  match hs with
  | [] => [(k, v)]
  | p :: rest => if p.1 == k then (k, v) :: rest else p :: headersSet rest k v

/-- The request-options normalization of `checkArgs`: header names are
lower-cased (`new Headers`), and a consent cookie is injected when no
cookie is set or the cookie lacks a `SOCS=` entry.  (Joining of duplicate
header names is not modelled.) -/
def normalizeReqOpts (ro : Option ReqOpts) : ReqOpts :=
  let base := ro.getD {}
  let hs := base.headers.map (fun p => (p.1.toLower, p.2))
  let cookie := ((hs.find? (fun p => p.1 == "cookie")).map (·.2)).getD ""
  let hs2 :=
    match cookie == "", containsSub cookie "SOCS=" with
    | true, _ => headersSet hs "cookie" "SOCS=CAI"
    | false, true => hs
    | false, false => headersSet hs "cookie" (cookie ++ "; SOCS=CAI")
  { headers := hs2 }

/-- Path part of a youtube URL string (everything between the host and the
query string); percent-decoding is not modelled. -/
def urlPathname (s : String) : String :=
  (s.drop 23).takeWhile (fun c => c ≠ '?')

/-- One `k=v` query segment. -/
def parseQueryPair (seg : String) : Option (String × String) :=
  if seg == "" then none
  else
    match seg.splitOn "=" with
    | [] => none
    | [k] => some (k, "")
    | k :: rest => some (k, String.intercalate "=" rest)

/-- The query parameters of a youtube URL string, in order, duplicates
kept. -/
def urlParams (s : String) : List (String × String) :=
  ((((s.drop 23).dropWhile (fun c => c ≠ '?')).drop 1).splitOn "&").filterMap parseQueryPair

/-- First value bound to a key in a parameter list (`searchParams.get`). -/
def qGet (l : List (String × String)) (k : String) : Option String :=
  (l.find? (fun p => p.1 == k)).map (·.2)

/-- Object-style update of a parameter list. -/
def qSet (l : List (String × String)) (k v : String) : List (String × String) :=
  match l with
  | [] => [(k, v)]
  | p :: rest => if p.1 == k then (k, v) :: rest else p :: qSet rest k v

/-- `for (key of searchParams.keys()) query[key] = searchParams.get(key)`:
each key keeps its first value. -/
def qDedupe (l : List (String × String)) : List (String × String) :=
  l.foldl (fun acc p => if (qGet acc p.1).isSome then acc else acc ++ [p]) []

/-- The query-object construction of `checkArgs`: a youtube results URL
with an `sp` filter parameter reuses its own query parameters (requiring a
`search_query`), anything else becomes a plain `search_query`. -/
def computeQuery (searchString : String) : Except YtsrErr (List (String × String)) :=
  match searchString.startsWith baseUrl && urlPathname searchString == "/results"
      && (qGet (urlParams searchString) "sp").isSome with
  | true =>
      match qGet (urlParams searchString) "search_query" with
      | some q =>
          match q == "" with
          | true => .error .filterLinkNeedsQuery
          | false => .ok (qDedupe (urlParams searchString))
      | none => .error .filterLinkNeedsQuery
  | false => .ok [("search_query", searchString)]

/-- The locale overrides applied to the merged query object. -/
def applyGlHl (options : SearchOptions) (q : List (String × String)) : List (String × String) :=
  let q1 := match options.gl with
    | some g => match g == "" with | true => q | false => qSet q "gl" g
    | none => q
  match options.hl with
  | some h => match h == "" with | true => q1 | false => qSet q1 "hl" h
  | none => q1

/-- Model of `checkArgs` of `src/unnamed/part_000`.  Besides the normalized
options it returns the caller-visible options object: an invalid or
missing `type` is corrected on that object itself, every other correction
happens on an internal copy. -/
def checkArgsModel (searchString : String) (options : SearchOptions) :
    Except YtsrErr (NormalizedOptions × SearchOptions) :=
  match searchString == "" with
  | true => .error .searchStringMandatory
  | false =>
    let options :=
      match typeValid options.type with
      | true => options
      | false => { options with type := some "video" }
    match computeQuery searchString with
    | .error e => .error e
    | .ok query0 =>
        let search := (qGet query0 "search_query").getD ""
        let merged := query0.foldl (fun acc p => qSet acc p.1 p.2) [("gl", "US"), ("hl", "en")]
        .ok
          ({ limit := normLimit options
             safeSearch := options.safeSearch.getD false
             type := options.type.getD "video"
             requestOptions := normalizeReqOpts options.requestOptions
             query := applyGlHl options merged
             search := search
             gl := options.gl
             hl := options.hl
             utcOffsetMinutes := options.utcOffsetMinutes }, options)

/-- Model of `getPlaylistParams`: traverse the search-filter popup and take
the second group's third filter's `params`. -/
def getPlaylistParamsModel (parsed : ParsedBody) : Option String :=
  match parsed.json with
  | none => none
  | some j =>
      match j.truthy with
      | false => none
      | true =>
        match parseHeaderGroups j with
        | none => none
        | some groups =>
            if groups.length < 2 then none
            else
              match groups.get? 1 with
              | none => none
              | some g =>
                  if g.length < 3 then none
                  else g.get? 2

/-- Model of `saveCache` of `src/unnamed/part_001`: a truthy extracted
client version is written to the cache; otherwise, when the cache holds
one, the request context is rebuilt from the cached version.  A truthy
playlist-filter parameter is also written to the cache. -/
def saveCacheModel (parsed : ParsedBody) (opts : NormalizedOptions) (cache : Cache) :
    ParsedBody × Cache :=
  let ctxCv : Option String :=
    match parsed.context with
    | some ctx => match ctx.clientVersion == "" with
        | true => none
        | false => some ctx.clientVersion
    | none => none
  let step1 : ParsedBody × Cache :=
    match ctxCv with
    | some cv => (parsed, cacheSet cache "clientVersion" cv)
    | none =>
        match cacheHas cache "clientVersion" with
        | true =>
            ({ parsed with
                context := some (buildPostContextModel ((cacheGet cache "clientVersion").getD "")
                  opts.gl opts.hl opts.utcOffsetMinutes opts.safeSearch) }, cache)
        | false => (parsed, cache)
  match getPlaylistParamsModel step1.1 with
  | some plp => match plp == "" with
      | true => step1
      | false => (step1.1, cacheSet step1.2 "playlistParams" plp)
  | none => step1

/-- The network, abstracted: the initial page fetch (already composed with
`parseBody`), the two search POSTs, and the continuation POST.  The first
three may depend on the attempt counter; a `.error` is a thrown transport
or JSON-decoding failure. -/
structure Env where
  page : Nat → Except Unit ParsedBody
  postPlaylist : Nat → Except Unit Json
  postVideo : Nat → Except Unit Json
  postCont : String → Except Unit Json

/-- The fetch-skipping condition of `ytsr` (lines 141-144 of
`src/unnamed/part_001`): the page is fetched unless safe-search is enabled
and both cache keys are present. -/
def shouldFetchModel (safeSearch : Bool) (cache : Cache) : Bool :=
  !safeSearch || !cacheHas cache "clientVersion" || !cacheHas cache "playlistParams"

/-- JS truthiness of `parsed.json`. -/
def parsedJsonTruthy (p : ParsedBody) : Bool :=
  match p.json with
  | some j => j.truthy
  | none => false

/-- The per-batch keep step shared by `ytsr` and `parsePage2`: normalize
each raw item, keep the type-matching ones, then apply the literal JS
truncation `.filter((_, index) => index < opts.limit)` — the index is a
natural number compared against the (possibly fractional) remaining
limit. -/
def keptItems (typ : String) (raw : List Json) (limit : ℚ) : List Item :=
  ((((raw.filterMap parseItemModel).filter (fun r => r.typeTag == typ)).enum.filter
    (fun p => decide ((p.1 : ℚ) < limit))).map Prod.snd)

/-- The `continuation ? deep token : null` / `!token` dance: an extracted
empty-string token is falsy and counts as no token. -/
def effToken (t : Option String) : Option String :=
  match t with
  | some tok => match tok == "" with | true => none | false => some tok
  | none => none

/-- Model of `parsePage2`: one recursion step POSTs the continuation token
(`doPost` sits before the `try`, so its failure escapes the step), unwraps
the batch, keeps type-matching items up to the remaining limit, and
recurses while a token and budget remain; a failure of the nested step is
caught and collapses the step to `[]`.  Returns the step result, the final
remaining limit, and the list of tokens requested. -/
def parsePage2Model (env : Env) (typ : String) :
    Nat → String → ℚ → Except Unit (List Item) × ℚ × List String
  | 0, _, limit => (.ok [], limit, [])
  | fuel + 1, tok, limit =>
      match env.postCont tok with
      | .error _ => (.error (), limit, [tok])
      | .ok json =>
          match parsePage2ResponseModel json with
          | none => (.ok [], limit, [tok])
          | some contItems =>
              let parsedItems := keptItems typ (parsePage2WrapperModel contItems).1 limit
              let limit1 := limit - (parsedItems.length : ℚ)
              match effToken (parsePage2WrapperModel contItems).2 with
              | none => (.ok parsedItems, limit1, [tok])
              | some t2 =>
                  if limit1 < 1 then (.ok parsedItems, limit1, [tok])
                  else
                    match parsePage2Model env typ fuel t2 limit1 with
                    | (.error _, limitN, tr) => (.ok [], limitN, tok :: tr)
                    | (.ok nested, limitN, tr) => (.ok (parsedItems ++ nested), limitN, tok :: tr)

/-- The result record of a successful search. -/
structure SearchResultOut where
  query : String
  items : List Item
  results : ℚ
deriving DecidableEq

/-- Outcome of one `ytsr` attempt: a thrown error, a recursive retry
(carrying the caller-visible options object and the cache), or a final
result. -/
inductive AttemptOut where
  | err (e : YtsrErr) : AttemptOut
  | retry (options : SearchOptions) (cache : Cache) : AttemptOut
  | done (res : SearchResultOut) (cache : Cache) : AttemptOut

/-- The final by-type filter of the returned item list. -/
def finalTypeFilter (typ : String) (items : List Item) : List Item :=
  items.filter (fun it => it.typeTag == typ)

/-- The tail of one `ytsr` attempt, from the `!parsed.json` retry check
(line 206) to the returned result. -/
def ytsrFinish (env : Env) (pfuel : Nat) (opts : NormalizedOptions)
    (options' : SearchOptions) (parsed : ParsedBody) (cache : Cache) : AttemptOut :=
  match parsedJsonTruthy parsed with
  | false => .retry options' cache
  | true =>
    match parsed.json with
    | none => .retry options' cache
    | some j =>
        match parseSearchResponseModel j with
        | none => .retry options' cache
        | some sr =>
            let items := keptItems opts.type (parseWrapperCore sr.primaryContents).1 opts.limit
            let limit1 := opts.limit - (items.length : ℚ)
            let results : ℚ :=
              match sr.estimatedResults with
              | some (.n v) => (v : ℚ)
              | some (.s s) => match jsNumber s with | .num v => v | .nan => 0
              | none => 0
            match effToken (parseWrapperCore sr.primaryContents).2 with
            | none => .done ⟨opts.search, finalTypeFilter opts.type items, results⟩ cache
            | some t =>
                if limit1 < 1 then
                  .done ⟨opts.search, finalTypeFilter opts.type items, results⟩ cache
                else
                  match parsePage2Model env opts.type pfuel t limit1 with
                  | (.error _, _, _) => .err .transport
                  | (.ok nested, _, _) =>
                      .done ⟨opts.search, finalTypeFilter opts.type (items ++ nested), results⟩ cache

/-- The cache state right after an attempt begins: the middle attempt of
the default chain (`retries === 2`) unconditionally deletes both session
keys. -/
def ytsrCacheAtAttemptStart (retries : Nat) (c : Cache) : Cache :=
  if retries = 2 then cacheDel (cacheDel c "clientVersion") "playlistParams" else c

/-- One full `ytsr` attempt after the cache-clear step (no recursion): the
retry-exhaustion throw, argument checking, the conditional page fetch,
`saveCache`, and the type-directed POST branch. -/
def ytsrAttemptCore (env : Env) (searchString : String) (options : SearchOptions)
    (pfuel retries : Nat) (cache : Cache) : AttemptOut :=
  if retries = 0 then .err .unableToFindJson
  else
    match checkArgsModel searchString options with
    | .error e => .err e
    | .ok (opts, options') =>
        match (match shouldFetchModel opts.safeSearch cache with
               | true => env.page retries
               | false => (.ok ⟨none, none⟩ : Except Unit ParsedBody)) with
        | .error _ => .err .transport
        | .ok parsed1 =>
            match opts.type == "playlist" with
            | true =>
              match env.postPlaylist retries with
              | .error _ => .err .transport
              | .ok pj =>
                  match parsedJsonTruthy { (saveCacheModel parsed1 opts cache).1 with json := some pj } with
                  | false => .err .playlistSearchFailed
                  | true =>
                      ytsrFinish env pfuel opts options'
                        { (saveCacheModel parsed1 opts cache).1 with json := some pj }
                        (saveCacheModel parsed1 opts cache).2
            | false =>
              match opts.safeSearch || !parsedJsonTruthy (saveCacheModel parsed1 opts cache).1 with
              | true =>
                match env.postVideo retries with
                | .error _ =>
                    if retries = 1 then .err .transport
                    else
                      ytsrFinish env pfuel opts options' (saveCacheModel parsed1 opts cache).1
                        (saveCacheModel parsed1 opts cache).2
                | .ok vj =>
                    ytsrFinish env pfuel opts options'
                      { (saveCacheModel parsed1 opts cache).1 with json := some vj }
                      (saveCacheModel parsed1 opts cache).2
              | false =>
                  ytsrFinish env pfuel opts options' (saveCacheModel parsed1 opts cache).1
                    (saveCacheModel parsed1 opts cache).2

/-- One full `ytsr` attempt: the `retries === 2` cache clear followed by
the attempt body. -/
def ytsrAttempt (env : Env) (searchString : String) (options : SearchOptions)
    (pfuel retries : Nat) (cache0 : Cache) : AttemptOut :=
  ytsrAttemptCore env searchString options pfuel retries (ytsrCacheAtAttemptStart retries cache0)

/-- Model of the exported `ytsr`: attempts chained on `.retry` with a
decremented counter, threading the caller-visible options object and the
process-wide cache. -/
def ytsrModel (env : Env) (searchString : String) (pfuel : Nat) :
    Nat → SearchOptions → Cache → Except YtsrErr (SearchResultOut × Cache)
  | 0, options, cache =>
      match ytsrAttempt env searchString options pfuel 0 cache with
      | .err e => .error e
      | .done r c => .ok (r, c)
      | .retry _ _ => .error .unableToFindJson
  | r + 1, options, cache =>
      match ytsrAttempt env searchString options pfuel (r + 1) cache with
      | .err e => .error e
      | .done res c => .ok (res, c)
      | .retry o c => ytsrModel env searchString pfuel r o c

/-- A minimal well-formed video renderer wrapper: just a `videoId` and an
empty thumbnail list. -/
def minVideoItem : Json :=
  .obj [("videoRenderer", .obj
    [("videoId", .str "vid1"), ("thumbnail", .obj [("thumbnails", .arr [])])])]

/-- A well-formed continuation-item wrapper carrying a token. -/
def contItemJson (tok : String) : Json :=
  .obj [("continuationItemRenderer", .obj
    [("continuationEndpoint", .obj
      [("continuationCommand", .obj [("token", .str tok)])])])]

/-- An item-section wrapper holding raw items. -/
def itemSectionJson (items : List Json) : Json :=
  .obj [("itemSectionRenderer", .obj [("contents", .arr items)])]

/-- A section-list primary-contents document. -/
def sectionListDoc (elems : List Json) : Json :=
  .obj [("sectionListRenderer", .obj [("contents", .arr elems)])]

/-- A full search-response document around a section list. -/
def searchDoc (elems : List Json) : Json :=
  .obj [("contents", .obj
    [("twoColumnSearchResultsRenderer", .obj
      [("primaryContents", sectionListDoc elems)])])]

/-- A continuation-batch response in the `onResponseReceivedCommands`
shape. -/
def page2Batch (items : List Json) : Json :=
  .obj [("onResponseReceivedCommands", .arr
    [.obj [("appendContinuationItemsAction", .obj
      [("continuationItems", .arr items)])]])]

/-- Four copies of the minimal video renderer. -/
def fourVideos : List Json :=
  [minVideoItem, minVideoItem, minVideoItem, minVideoItem]

/-- A three-page continuation chain: pages `t1`, `t2`, `t3` each yield four
videos, pages beyond throw. -/
def chainEnv : Env :=
  { page := fun _ => .error ()
    postPlaylist := fun _ => .error ()
    postVideo := fun _ => .error ()
    postCont := fun tok =>
      if tok == "t1" then .ok (page2Batch [itemSectionJson fourVideos, contItemJson "t2"])
      else if tok == "t2" then .ok (page2Batch [itemSectionJson fourVideos, contItemJson "t3"])
      else if tok == "t3" then .ok (page2Batch [itemSectionJson fourVideos, contItemJson "t4"])
      else .error () }

/-- An initial page whose embedded JSON holds one video and a continuation
token `T`. -/
def pageBodyWithCont : ParsedBody :=
  { json := some (searchDoc [itemSectionJson [minVideoItem], contItemJson "T"])
    context := some (buildPostContextModel "2.20240101.00.00" none none none false) }

/-- An environment whose initial page succeeds but whose continuation POST
always throws. -/
def failContEnv : Env :=
  { page := fun _ => .ok pageBodyWithCont
    postPlaylist := fun _ => .error ()
    postVideo := fun _ => .error ()
    postCont := fun _ => .error () }

/-- An initial page holding one video and no continuation. -/
def pageBodyNoCont : ParsedBody :=
  { json := some (searchDoc [itemSectionJson [minVideoItem]])
    context := some (buildPostContextModel "2.20240101.00.00" none none none false) }

/-- An environment where the initial page succeeds and pagination is never
needed. -/
def okEnv : Env :=
  { page := fun _ => .ok pageBodyNoCont
    postPlaylist := fun _ => .error ()
    postVideo := fun _ => .error ()
    postCont := fun _ => .error () }

/-- A continuation chain whose single page `t1` yields four videos and no
further token. -/
def singlePageEnv : Env :=
  { page := fun _ => .error ()
    postPlaylist := fun _ => .error ()
    postVideo := fun _ => .error ()
    postCont := fun tok =>
      if tok == "t1" then .ok (page2Batch [itemSectionJson fourVideos]) else .error () }

/-- The caller passing no options at all. -/
def defaultSearchOptions : SearchOptions := {}

/-- The skip condition exactly as claim C1 words it: safe-search disabled
and both session-cache keys present. -/
def claimedSkipCondition (safeSearch : Bool) (cache : Cache) : Bool :=
  !safeSearch && cacheHas cache "clientVersion" && cacheHas cache "playlistParams"

/-- A well-formed video renderer wrapper with an id, a simple-text title,
a (possibly empty) thumbnail list, and a simple-text view count. -/
def videoRendererItem (vid t s : String) : Json :=
  .obj [("videoRenderer", .obj
    [("videoId", .str vid),
     ("title", .obj [("simpleText", .str t)]),
     ("thumbnail", .obj [("thumbnails", .arr [])]),
     ("viewCountText", .obj [("simpleText", .str s)])])]

/-- The validated renderer that `videoRendererItem` parses to. -/
def vrValue (vid t s : String) : VRModel :=
  { videoId := vid
    title := some (.obj [("simpleText", .str t)])
    viewCountText := some (.obj [("simpleText", .str s)])
    thumbnails := [] }

/-- The Video that `parseItem` produces from `videoRendererItem`. -/
def expectedVideo (vid t s : String) : Video :=
  { name := t
    id := vid
    url := baseVideoUrl ++ vid
    thumbnail := ""
    thumbnails := []
    isUpcoming := false
    upcoming := none
    isLive := false
    badges := []
    author := none
    description := ""
    views := some (digitsVal (s.data.filter Char.isDigit))
    duration := ""
    uploadedAt := "" }

/-- The same renderer with the required `videoId` removed. -/
def videoRendererItemNoId (t s : String) : Json :=
  .obj [("videoRenderer", .obj
    [("title", .obj [("simpleText", .str t)]),
     ("thumbnail", .obj [("thumbnails", .arr [])]),
     ("viewCountText", .obj [("simpleText", .str s)])])]

/-- Normalized options of a plain default video search, used to exercise
`saveCacheModel` at a concrete input. -/
def plainNOpts : NormalizedOptions :=
  ⟨10, false, "video", {}, [("search_query", "q")], "q", none, none, none⟩

/-- The successful result of the `okEnv` search, extracted for the limit
witness. -/
def claim4WitnessResult : SearchResultOut × Cache :=
  (ytsrModel okEnv "test" 10 3 defaultSearchOptions initialCache).toOption.getD
    (⟨"", [], 0⟩, [])

/-- Options with an invalid `type`, used to exercise `checkArgs`. -/
def claim10Options : SearchOptions :=
  { type := some "bogus", limit := some (JsNum.num 3), gl := some "DE" }

/-- The `checkArgs` output on `claim10Options`, extracted for the frame
witness. -/
def claim10Result : NormalizedOptions × SearchOptions :=
  (checkArgsModel "hello" claim10Options).toOption.getD
    (⟨10, false, "video", {}, [], "", none, none, none⟩, {})

/-- An initial page holding four videos and no continuation. -/
def pageBodyFourVideos : ParsedBody :=
  { json := some (searchDoc [itemSectionJson fourVideos])
    context := some (buildPostContextModel "2.20240101.00.00" none none none false) }

/-- An environment whose initial page yields four videos and whose POSTs
all throw (they are never reached). -/
def fourVideoEnv : Env :=
  { page := fun _ => .ok pageBodyFourVideos
    postPlaylist := fun _ => .error ()
    postVideo := fun _ => .error ()
    postCont := fun _ => .error () }

/-- Caller options with the fractional limit 5/2, which `checkArgs` keeps
unchanged: it is neither NaN nor non-positive. -/
def fracOptions : SearchOptions := { limit := some (JsNum.num (5 / 2)) }

/-- The successful result of the fractional-limit search, extracted for
the limit counterexample. -/
def fracResult : SearchResultOut × Cache :=
  (ytsrModel fourVideoEnv "test" 10 3 fracOptions initialCache).toOption.getD
    (⟨"", [], 0⟩, [])

/-! Supporting lemmas. -/

/-- Deleting a key removes every binding of that key. -/
theorem cacheHas_cacheDel_self (c : Cache) (k : String) :
    cacheHas (cacheDel c k) k = false := by
  induction c with
  | nil => rfl
  | cons p rest ih =>
      cases h1 : p.1 == k with
      | true => simpa [cacheDel, h1] using ih
      | false => simp [cacheDel, cacheHas, h1, ih]

/-- Deleting one key leaves the presence of a different key unchanged. -/
theorem cacheHas_cacheDel_other (c : Cache) (k k' : String) (h : k ≠ k') :
    cacheHas (cacheDel c k') k = cacheHas c k := by
  induction c with
  | nil => rfl
  | cons p rest ih =>
      cases h1 : p.1 == k' with
      | true =>
          have hp : p.1 = k' := by simpa using h1
          have hk : (p.1 == k) = false := by
            rw [hp]
            exact beq_eq_false_iff_ne.mpr (Ne.symm h)
          simp [cacheDel, cacheHas, h1, hk, ih]
      | false => simp [cacheDel, cacheHas, h1, ih]

/-- Setting a key makes it readable. -/
theorem cacheGet_cacheSet_self (c : Cache) (k v : String) :
    cacheGet (cacheSet c k v) k = some v := by
  induction c with
  | nil => simp [cacheSet, cacheGet]
  | cons p rest ih =>
      cases h1 : p.1 == k with
      | true => simp [cacheSet, cacheGet, h1]
      | false => simp [cacheSet, cacheGet, h1, ih]

/-- Setting one key leaves a different key's value unchanged. -/
theorem cacheGet_cacheSet_other (c : Cache) (k k' v : String) (h : k ≠ k') :
    cacheGet (cacheSet c k' v) k = cacheGet c k := by
  have hkk : (k' == k) = false := beq_eq_false_iff_ne.mpr (Ne.symm h)
  induction c with
  | nil => simp [cacheSet, cacheGet, hkk]
  | cons p rest ih =>
      cases h1 : p.1 == k' with
      | true =>
          have hp : p.1 = k' := by simpa using h1
          simp [cacheSet, cacheGet, h1, hp, hkk]
      | false => simp [cacheSet, cacheGet, h1, ih]

/-- A digit-filtered string coerces to a proper number: its digit value. -/
theorem jsNumber_digitsOnly (s : String) :
    jsNumber (digitsOnly s) = .num (digitsVal (s.data.filter Char.isDigit)) := by
  have hall : (s.data.filter Char.isDigit).all Char.isDigit = true := by
    rw [List.all_eq_true]
    intro x hx
    simpa using (List.mem_filter.mp hx).2
  simp [jsNumber, digitsOnly, hall]

/-- The JS index filter `index < m` over an enumerated list keeps exactly
the first `m - n` elements when enumeration starts at `n`. -/
theorem enumFrom_filter_lt_map {α : Type} (m : ℕ) :
    ∀ (n : ℕ) (l : List α),
      ((List.enumFrom n l).filter (fun p => decide (p.1 < m))).map Prod.snd =
        l.take (m - n) := by
  intro n l
  induction l generalizing n with
  | nil => simp
  | cons a l ih =>
      by_cases h : n < m
      · have hmn : m - n = (m - (n + 1)) + 1 := by omega
        simp only [List.enumFrom, List.filter_cons]
        rw [if_pos (by simpa using h)]
        rw [List.map_cons]
        rw [ih (n + 1)]
        rw [hmn]
        rfl
      · have h1 : m - (n + 1) = 0 := by omega
        have h2 : m - n = 0 := by omega
        simp only [List.enumFrom, List.filter_cons]
        rw [if_neg (by simpa using h)]
        rw [ih (n + 1)]
        rw [h1, h2]
        simp

/-- The kept batch, written with the literal index filter, is a take of
the ceiling of the remaining limit. -/
theorem keptItems_eq_take (typ : String) (raw : List Json) (q : ℚ) :
    keptItems typ raw q =
      ((raw.filterMap parseItemModel).filter (fun r => r.typeTag == typ)).take
        (Nat.ceil q) := by
  unfold keptItems
  have hp : (fun p : ℕ × Item => decide ((p.1 : ℚ) < q)) =
      (fun p : ℕ × Item => decide (p.1 < Nat.ceil q)) := by
    funext p
    exact decide_eq_decide.mpr Nat.lt_ceil.symm
  rw [hp]
  rw [show ((raw.filterMap parseItemModel).filter (fun r => r.typeTag == typ)).enum =
      List.enumFrom 0 ((raw.filterMap parseItemModel).filter (fun r => r.typeTag == typ))
    from rfl]
  rw [enumFrom_filter_lt_map (Nat.ceil q) 0]
  simp

/-- The kept batch never exceeds the ceiling of the remaining limit. -/
theorem keptItems_length_le (typ : String) (raw : List Json) (limit : ℚ) :
    (keptItems typ raw limit).length ≤ Nat.ceil limit := by
  rw [keptItems_eq_take]
  rw [List.length_take]
  exact Nat.min_le_left _ _

/-- Ceiling arithmetic for the walker's budget: after keeping `k` items a
budget of at least one more page (`1 ≤ q - k`) leaves room for at most
`⌈q⌉ - k` further items. -/
theorem ceil_budget_bound (k : ℕ) (q : ℚ) (h : (1 : ℚ) ≤ q - (k : ℚ)) :
    k + Nat.ceil (q - (k : ℚ)) ≤ Nat.ceil q := by
  have hk : (k : ℚ) ≤ q := by linarith
  have hkn : k ≤ Nat.ceil q := by
    have hkc : (k : ℚ) ≤ (Nat.ceil q : ℚ) := le_trans hk (Nat.le_ceil q)
    exact_mod_cast hkc
  have h1 : Nat.ceil (q - (k : ℚ)) ≤ Nat.ceil q - k := by
    rw [Nat.ceil_le, Nat.cast_sub hkn]
    have := Nat.le_ceil q
    linarith
  omega

/-- A list of plain objects survives `z.array(z.record(z.unknown()))`
unchanged. -/
theorem recordsParse_eq (l : List Json) (h : ∀ j ∈ l, j.isObj = true) :
    recordsParse l = some l := by
  have hall : l.all Json.isObj = true := by
    rw [List.all_eq_true]
    intro x hx
    simpa using h x hx
  simp [recordsParse, hall]

/-- A successful pagination walk returns at most the ceiling of the
remaining limit many items. -/
theorem parsePage2_ok_length_le (env : Env) (typ : String) :
    ∀ (fuel : Nat) (tok : String) (limit : ℚ) (xs : List Item) (l : ℚ) (tr : List String),
      parsePage2Model env typ fuel tok limit = (.ok xs, l, tr) →
        xs.length ≤ Nat.ceil limit := by
  intro fuel
  induction fuel with
  | zero =>
      intro tok limit xs l tr h
      simp only [parsePage2Model, Prod.mk.injEq, Except.ok.injEq] at h
      rw [← h.1]
      simp
  | succ fuel ih =>
      intro tok limit xs l tr h
      rw [parsePage2Model] at h
      cases hpc : env.postCont tok with
      | error e => simp [hpc] at h
      | ok j =>
          simp only [hpc] at h
          cases hpr : parsePage2ResponseModel j with
          | none =>
              simp only [hpr, Prod.mk.injEq, Except.ok.injEq] at h
              rw [← h.1]
              simp
          | some ci =>
              simp only [hpr] at h
              cases het : effToken (parsePage2WrapperModel ci).2 with
              | none =>
                  simp only [het, Prod.mk.injEq, Except.ok.injEq] at h
                  rw [← h.1]
                  exact keptItems_length_le _ _ _
              | some t2 =>
                  simp only [het] at h
                  by_cases hl :
                      limit -
                        ((keptItems typ (parsePage2WrapperModel ci).1 limit).length : ℚ) < 1
                  · rw [if_pos hl] at h
                    simp only [Prod.mk.injEq, Except.ok.injEq] at h
                    rw [← h.1]
                    exact keptItems_length_le _ _ _
                  · rw [if_neg hl] at h
                    rcases hrec : parsePage2Model env typ fuel t2
                        (limit -
                          ((keptItems typ (parsePage2WrapperModel ci).1 limit).length : ℚ)) with
                      ⟨res, l2, tr2⟩
                    cases res with
                    | error e =>
                        simp only [hrec, Prod.mk.injEq, Except.ok.injEq] at h
                        rw [← h.1]
                        simp
                    | ok nested =>
                        simp only [hrec, Prod.mk.injEq, Except.ok.injEq] at h
                        have hb : nested.length ≤ Nat.ceil
                            (limit -
                              ((keptItems typ (parsePage2WrapperModel ci).1 limit).length : ℚ)) :=
                          ih t2 _ nested l2 tr2 hrec
                        have hcb := ceil_budget_bound
                          (keptItems typ (parsePage2WrapperModel ci).1 limit).length limit
                          (le_of_not_lt hl)
                        rw [← h.1]
                        rw [List.length_append]
                        omega

/-- `normLimit` only reads the `limit` field. -/
theorem normLimit_congr (a b : SearchOptions) (h : a.limit = b.limit) :
    normLimit a = normLimit b := by
  simp [normLimit, h]

/-- A successful `checkArgs` normalizes the limit via `normLimit` and
leaves the caller object's `limit` untouched. -/
theorem checkArgs_ok_limits (s : String) (options : SearchOptions)
    (n : NormalizedOptions) (o' : SearchOptions)
    (h : checkArgsModel s options = .ok (n, o')) :
    n.limit = normLimit options ∧ o'.limit = options.limit := by
  unfold checkArgsModel at h
  cases hs : s == "" with
  | true => simp [hs] at h
  | false =>
      simp only [hs] at h
      cases ht : typeValid options.type with
      | true =>
          rw [ht] at h
          cases hcq : computeQuery s with
          | error e => rw [hcq] at h; exact absurd h (by simp)
          | ok q =>
              rw [hcq] at h
              simp only [Except.ok.injEq, Prod.mk.injEq] at h
              rw [← h.1, ← h.2]
              exact ⟨rfl, rfl⟩
      | false =>
          rw [ht] at h
          cases hcq : computeQuery s with
          | error e => rw [hcq] at h; exact absurd h (by simp)
          | ok q =>
              rw [hcq] at h
              simp only [Except.ok.injEq, Prod.mk.injEq] at h
              rw [← h.1, ← h.2]
              exact ⟨rfl, rfl⟩

/-- A `.done` outcome of the attempt tail keeps at most `opts.limit`
items. -/
theorem ytsrFinish_done_items_le (env : Env) (pfuel : Nat) (opts : NormalizedOptions)
    (options' : SearchOptions) (parsed : ParsedBody) (cache : Cache)
    (r : SearchResultOut) (c : Cache)
    (h : ytsrFinish env pfuel opts options' parsed cache = .done r c) :
    r.items.length ≤ Nat.ceil opts.limit := by
  unfold ytsrFinish at h
  cases hj : parsedJsonTruthy parsed with
  | false => simp [hj] at h
  | true =>
      simp only [hj] at h
      cases hjs : parsed.json with
      | none => simp [hjs] at h
      | some j =>
          simp only [hjs] at h
          cases hsr : parseSearchResponseModel j with
          | none => simp [hsr] at h
          | some sr =>
              simp only [hsr] at h
              cases het : effToken (parseWrapperCore sr.primaryContents).2 with
              | none =>
                  simp only [het, AttemptOut.done.injEq] at h
                  rw [← h.1]
                  simp only [finalTypeFilter]
                  exact le_trans (List.length_filter_le _ _) (keptItems_length_le _ _ _)
              | some t =>
                  simp only [het] at h
                  by_cases hl : opts.limit -
                      ((keptItems opts.type (parseWrapperCore sr.primaryContents).1
                        opts.limit).length : ℚ) < 1
                  · rw [if_pos hl] at h
                    simp only [AttemptOut.done.injEq] at h
                    rw [← h.1]
                    simp only [finalTypeFilter]
                    exact le_trans (List.length_filter_le _ _) (keptItems_length_le _ _ _)
                  · rw [if_neg hl] at h
                    rcases hrec : parsePage2Model env opts.type pfuel t
                        (opts.limit -
                          ((keptItems opts.type (parseWrapperCore sr.primaryContents).1
                            opts.limit).length : ℚ)) with ⟨res, l2, tr2⟩
                    cases res with
                    | error e => simp [hrec] at h
                    | ok nested =>
                        simp only [hrec, AttemptOut.done.injEq] at h
                        have hb := parsePage2_ok_length_le env opts.type pfuel t _ nested l2 tr2 hrec
                        have hcb := ceil_budget_bound
                          (keptItems opts.type (parseWrapperCore sr.primaryContents).1
                            opts.limit).length opts.limit (le_of_not_lt hl)
                        have hf := List.length_filter_le (fun it => it.typeTag == opts.type)
                          (keptItems opts.type (parseWrapperCore sr.primaryContents).1 opts.limit
                            ++ nested)
                        rw [← h.1]
                        simp only [finalTypeFilter]
                        rw [List.length_append] at hf
                        omega

/-- A `.retry` outcome of the attempt tail carries the caller-visible
options object unchanged. -/
theorem ytsrFinish_retry_eq (env : Env) (pfuel : Nat) (opts : NormalizedOptions)
    (options' : SearchOptions) (parsed : ParsedBody) (cache : Cache)
    (o : SearchOptions) (c : Cache)
    (h : ytsrFinish env pfuel opts options' parsed cache = .retry o c) : o = options' := by
  unfold ytsrFinish at h
  cases hj : parsedJsonTruthy parsed with
  | false =>
      simp only [hj, AttemptOut.retry.injEq] at h
      exact h.1.symm
  | true =>
      simp only [hj] at h
      cases hjs : parsed.json with
      | none =>
          simp only [hjs, AttemptOut.retry.injEq] at h
          exact h.1.symm
      | some j =>
          simp only [hjs] at h
          cases hsr : parseSearchResponseModel j with
          | none =>
              simp only [hsr, AttemptOut.retry.injEq] at h
              exact h.1.symm
          | some sr =>
              simp only [hsr] at h
              cases het : effToken (parseWrapperCore sr.primaryContents).2 with
              | none => simp [het] at h
              | some t =>
                  simp only [het] at h
                  by_cases hl : opts.limit -
                      ((keptItems opts.type (parseWrapperCore sr.primaryContents).1
                        opts.limit).length : ℚ) < 1
                  · rw [if_pos hl] at h
                    simp at h
                  · rw [if_neg hl] at h
                    rcases hrec : parsePage2Model env opts.type pfuel t
                        (opts.limit -
                          ((keptItems opts.type (parseWrapperCore sr.primaryContents).1
                            opts.limit).length : ℚ)) with ⟨res, l2, tr2⟩
                    cases res with
                    | error e => simp [hrec] at h
                    | ok nested => simp [hrec] at h

/-- A `.done` outcome of the attempt body keeps at most the normalized
limit. -/
theorem ytsrAttemptCore_done_items_le (env : Env) (s : String) (options : SearchOptions)
    (pfuel retries : Nat) (cache : Cache) (r : SearchResultOut) (c : Cache)
    (h : ytsrAttemptCore env s options pfuel retries cache = .done r c) :
    r.items.length ≤ Nat.ceil (normLimit options) := by
  unfold ytsrAttemptCore at h
  split at h
  · exact absurd h (by simp)
  · split at h
    next e hca => exact absurd h (by simp)
    next opts o' hca =>
      rw [← (checkArgs_ok_limits s options opts o' hca).1]
      split at h
      next hfe => exact absurd h (by simp)
      next parsed1 hfe =>
        split at h
        next hty =>
          split at h
          next hpp => exact absurd h (by simp)
          next pj hpp =>
            split at h
            next htr => exact absurd h (by simp)
            next htr => exact ytsrFinish_done_items_le _ _ _ _ _ _ _ _ h
        next hty =>
          split at h
          next hsv =>
            split at h
            next hpv =>
              split at h
              · exact absurd h (by simp)
              · exact ytsrFinish_done_items_le _ _ _ _ _ _ _ _ h
            next vj hpv => exact ytsrFinish_done_items_le _ _ _ _ _ _ _ _ h
          next hsv => exact ytsrFinish_done_items_le _ _ _ _ _ _ _ _ h

/-- A `.retry` outcome of the attempt body preserves the caller options'
`limit` field. -/
theorem ytsrAttemptCore_retry_limit (env : Env) (s : String) (options : SearchOptions)
    (pfuel retries : Nat) (cache : Cache) (o : SearchOptions) (c : Cache)
    (h : ytsrAttemptCore env s options pfuel retries cache = .retry o c) :
    o.limit = options.limit := by
  unfold ytsrAttemptCore at h
  split at h
  · exact absurd h (by simp)
  · split at h
    next e hca => exact absurd h (by simp)
    next opts o' hca =>
      have ho' : o'.limit = options.limit := (checkArgs_ok_limits s options opts o' hca).2
      split at h
      next hfe => exact absurd h (by simp)
      next parsed1 hfe =>
        split at h
        next hty =>
          split at h
          next hpp => exact absurd h (by simp)
          next pj hpp =>
            split at h
            next htr => exact absurd h (by simp)
            next htr =>
              rw [ytsrFinish_retry_eq _ _ _ _ _ _ _ _ h]
              exact ho'
        next hty =>
          split at h
          next hsv =>
            split at h
            next hpv =>
              split at h
              · exact absurd h (by simp)
              · rw [ytsrFinish_retry_eq _ _ _ _ _ _ _ _ h]
                exact ho'
            next vj hpv =>
              rw [ytsrFinish_retry_eq _ _ _ _ _ _ _ _ h]
              exact ho'
          next hsv =>
            rw [ytsrFinish_retry_eq _ _ _ _ _ _ _ _ h]
            exact ho'

/-! The claims. -/

/-- C1, counterexample: with safe-search disabled and both cache keys
present (the process-start state), the claim predicts the initial page
fetch is skipped, but the code fetches (`shouldFetchModel` is true). -/
theorem claim1_counterexample :
    claimedSkipCondition false initialCache = true ∧
    shouldFetchModel false initialCache = true := ⟨rfl, rfl⟩

/-- C1, amended: the initial HTML page fetch is skipped if and only if
safe-search is ENABLED and both session-cache keys are present; in every
other case the page is fetched. -/
theorem claim1_amended_skip_iff (sf : Bool) (c : Cache) :
    shouldFetchModel sf c = false ↔
      sf = true ∧ cacheHas c "clientVersion" = true ∧
        cacheHas c "playlistParams" = true := by
  cases sf <;> cases h1 : cacheHas c "clientVersion" <;>
    cases h2 : cacheHas c "playlistParams" <;> simp [shouldFetchModel, h1, h2]

/-- C2, counterexample: a network failure on the FIRST continuation
request is not caught anywhere and rejects the whole top-level search. -/
theorem claim2_counterexample :
    ytsrModel failContEnv "test" 10 3 defaultSearchOptions initialCache =
      .error .transport := rfl

/-- C2, amended: a pagination step lets a failure escape exactly when its
own continuation POST throws; every failure of a nested step (or of
response-shape parsing) is caught and degrades that branch to an empty or
partial result instead of rejecting. -/
theorem claim2_amended_step_error_iff (env : Env) (typ : String)
    (fuel : Nat) (tok : String) (limit : Nat) :
    (parsePage2Model env typ (fuel + 1) tok limit).1 = .error () ↔
      env.postCont tok = .error () := by
  constructor
  · intro h
    cases hpc : env.postCont tok with
    | error e => rfl
    | ok j =>
        exfalso
        rw [parsePage2Model] at h
        simp only [hpc] at h
        cases hpr : parsePage2ResponseModel j with
        | none => simp only [hpr] at h; exact absurd h (by simp)
        | some ci =>
            simp only [hpr] at h
            cases het : effToken (parsePage2WrapperModel ci).2 with
            | none => simp only [het] at h; exact absurd h (by simp)
            | some t2 =>
                simp only [het] at h
                by_cases hl :
                    limit -
                      ((keptItems typ (parsePage2WrapperModel ci).1 limit).length : ℚ) < 1
                · rw [if_pos hl] at h
                  exact absurd h (by simp)
                · rw [if_neg hl] at h
                  rcases hrec : parsePage2Model env typ fuel t2
                      (limit -
                        ((keptItems typ (parsePage2WrapperModel ci).1 limit).length : ℚ)) with
                    ⟨res, l2, tr2⟩
                  cases res with
                  | error e => simp only [hrec] at h; exact absurd h (by simp)
                  | ok nested => simp only [hrec] at h; exact absurd h (by simp)
  · intro h
    rw [parsePage2Model]
    simp only [h]

/-- C2, amended, witness: with a throwing root request the step reports an
error, and the theorem recovers that the POST itself threw. -/
theorem claim2_amended_witness :
    failContEnv.postCont "T" = .error () :=
  (claim2_amended_step_error_iff failContEnv "video" 9 "T" 9).mp rfl

/-- C3, counterexample: the session cache is not empty at process start —
both keys are already present before any fetch. -/
theorem claim3_counterexample :
    cacheHas initialCache "clientVersion" = true ∧
    cacheHas initialCache "playlistParams" = true := ⟨rfl, rfl⟩

/-- C3, amended: at process start the cache holds hardcoded defaults for
both keys, and any initial-page parse carrying a truthy client version
overwrites the cached entry via `saveCache`. -/
theorem claim3_amended_cache_lifecycle :
    (cacheGet initialCache "clientVersion" = some "2.20240606.06.00" ∧
      cacheGet initialCache "playlistParams" = some "EgIQAw%3D%3D") ∧
    ∀ (parsed : ParsedBody) (opts : NormalizedOptions) (cache : Cache) (ctx : Ctx),
      parsed.context = some ctx → ctx.clientVersion ≠ "" →
      cacheGet (saveCacheModel parsed opts cache).2 "clientVersion" =
        some ctx.clientVersion := by
  refine ⟨⟨rfl, rfl⟩, ?_⟩
  intro parsed opts cache ctx hctx hcv
  have hne : (ctx.clientVersion == "") = false := beq_eq_false_iff_ne.mpr hcv
  unfold saveCacheModel
  simp only [hctx, hne]
  cases hplp : getPlaylistParamsModel parsed with
  | none =>
      simp only [hplp]
      exact cacheGet_cacheSet_self cache "clientVersion" ctx.clientVersion
  | some plp =>
      simp only [hplp]
      cases hpe : plp == "" with
      | true =>
          simp only [hpe]
          exact cacheGet_cacheSet_self cache "clientVersion" ctx.clientVersion
      | false =>
          simp only [hpe]
          rw [cacheGet_cacheSet_other _ _ _ _ (by decide)]
          exact cacheGet_cacheSet_self cache "clientVersion" ctx.clientVersion

/-- C3, amended, witness: saving a parse whose context carries the client
version `2.20240101.00.00` stores that version. -/
theorem claim3_amended_witness :
    cacheGet (saveCacheModel pageBodyWithCont plainNOpts []).2 "clientVersion" =
      some "2.20240101.00.00" :=
  claim3_amended_cache_lifecycle.2 pageBodyWithCont plainNOpts []
    (buildPostContextModel "2.20240101.00.00" none none none false) rfl (by decide)

/-- C4, counterexample: the fractional limit 5/2 survives `checkArgs`
(it is neither NaN nor non-positive), and the JS truncation
`index < 2.5` keeps indices 0, 1 and 2 — the search returns three items,
violating the claimed bound `items.length <= limit`. -/
theorem claim4_counterexample :
    ytsrModel fourVideoEnv "test" 10 3 fracOptions initialCache = .ok fracResult ∧
    fracResult.1.items.length = 3 ∧
    normLimit fracOptions = 5 / 2 ∧
    ¬((fracResult.1.items.length : ℚ) ≤ normLimit fracOptions) := by
  refine ⟨rfl, rfl, rfl, by decide⟩

/-- C4, amended: every successful search returns at most the CEILING of
the normalized limit many items (hence at most the limit itself whenever
the limit is an integer): the JS filter `index < limit` keeps up to
`⌈limit⌉` items, the budget shrinks by the count kept, and every
continuation batch keeps at most the ceiling of the remainder. -/
theorem claim4_amended_items_le_ceil_limit (env : Env) (s : String) (pfuel : Nat) :
    ∀ (retries : Nat) (options : SearchOptions) (cache : Cache)
      (r : SearchResultOut) (c : Cache),
      ytsrModel env s pfuel retries options cache = .ok (r, c) →
      r.items.length ≤ Nat.ceil (normLimit options) := by
  intro retries
  induction retries with
  | zero =>
      intro options cache r c h
      simp only [ytsrModel] at h
      cases hA : ytsrAttempt env s options pfuel 0 cache with
      | err e => rw [hA] at h; exact absurd h (by simp)
      | retry o cc => rw [hA] at h; exact absurd h (by simp)
      | done res cc =>
          rw [hA] at h
          simp only [Except.ok.injEq, Prod.mk.injEq] at h
          rw [← h.1]
          exact ytsrAttemptCore_done_items_le env s options pfuel 0 _ res cc hA
  | succ rr ih =>
      intro options cache r c h
      simp only [ytsrModel] at h
      cases hA : ytsrAttempt env s options pfuel (rr + 1) cache with
      | err e => rw [hA] at h; exact absurd h (by simp)
      | done res cc =>
          rw [hA] at h
          simp only [Except.ok.injEq, Prod.mk.injEq] at h
          rw [← h.1]
          exact ytsrAttemptCore_done_items_le env s options pfuel (rr + 1) _ res cc hA
      | retry o cc =>
          rw [hA] at h
          have hb := ih o cc r c h
          have hl : o.limit = options.limit :=
            ytsrAttemptCore_retry_limit env s options pfuel (rr + 1) _ o cc hA
          exact le_trans hb (le_of_eq (congrArg Nat.ceil (normLimit_congr o options hl)))

/-- C4, amended, witness: the `okEnv` search succeeds and its item list
respects the ceiling of the default limit. -/
theorem claim4_witness :
    claim4WitnessResult.1.items.length ≤ Nat.ceil (normLimit defaultSearchOptions) :=
  claim4_amended_items_le_ceil_limit okEnv "test" 10 3 defaultSearchOptions initialCache
    claim4WitnessResult.1 claim4WitnessResult.2 rfl

/-- C5: on a chain of three pages of four matching items with remaining
limit 10, the walker returns exactly 10 items and requests only pages
1-3; with remaining limit 4 it stops after page 1, and a batch with no
continuation token triggers no further request. -/
theorem claim5_pagination_walker :
    (parsePage2Model chainEnv "video" 10 "t1" 10).1.map List.length = .ok 10 ∧
    (parsePage2Model chainEnv "video" 10 "t1" 10).2.2 = ["t1", "t2", "t3"] ∧
    (parsePage2Model chainEnv "video" 10 "t1" 4).1.map List.length = .ok 4 ∧
    (parsePage2Model chainEnv "video" 10 "t1" 4).2.2 = ["t1"] ∧
    (parsePage2Model singlePageEnv "video" 10 "t1" 10).1.map List.length = .ok 4 ∧
    (parsePage2Model singlePageEnv "video" 10 "t1" 10).2.2 = ["t1"] :=
  ⟨rfl, rfl, rfl, rfl, rfl, rfl⟩

/-- C6: at the start of the attempt whose counter equals 2, both session
cache keys are removed, whatever the cache held before. -/
theorem claim6_middle_attempt_clears_cache (c : Cache) :
    cacheHas (ytsrCacheAtAttemptStart 2 c) "clientVersion" = false ∧
    cacheHas (ytsrCacheAtAttemptStart 2 c) "playlistParams" = false := by
  unfold ytsrCacheAtAttemptStart
  rw [if_pos rfl]
  constructor
  · rw [cacheHas_cacheDel_other _ _ _ (by decide)]
    exact cacheHas_cacheDel_self c "clientVersion"
  · exact cacheHas_cacheDel_self _ "playlistParams"

/-- C7: when the attempt counter reaches 0, the search throws the
terminal error, which no successful (even empty) result can equal. -/
theorem claim7_retry_exhaustion (env : Env) (s : String) (pfuel : Nat)
    (options : SearchOptions) (cache : Cache) :
    ytsrModel env s pfuel 0 options cache = .error .unableToFindJson ∧
    ∀ p : SearchResultOut × Cache,
      (Except.error YtsrErr.unableToFindJson :
        Except YtsrErr (SearchResultOut × Cache)) ≠ .ok p :=
  ⟨rfl, fun _ hp => Except.noConfusion hp⟩

/-- C8: the response unwrapper on a section-list document holding an
item-section of N raw objects returns exactly those N raw items, together
with the token when a well-formed continuation wrapper is present and
with `null` when that element is removed. -/
theorem claim8_unwrapper (items : List Json) (tok : String)
    (h : ∀ j ∈ items, j.isObj = true) :
    parseWrapperModel (sectionListDoc [itemSectionJson items, contItemJson tok]) =
      (items, some tok) ∧
    parseWrapperModel (sectionListDoc [itemSectionJson items]) = (items, none) := by
  have hrec := recordsParse_eq items h
  constructor
  · simp [parseWrapperModel, parsePrimaryContents, sectionListDoc, itemSectionJson,
      contItemJson, parseRItemList, parseRItem, Json.getField, hrec, parseWrapperCore,
      parseContinuationToken, reqStrField, RItem.isItemSection, RItem.hasContKey,
      List.find?]
  · simp [parseWrapperModel, parsePrimaryContents, sectionListDoc, itemSectionJson,
      parseRItemList, parseRItem, Json.getField, hrec, parseWrapperCore,
      parseContinuationToken, reqStrField, RItem.isItemSection, RItem.hasContKey,
      List.find?]

/-- C8, witness: a concrete two-object item section with token "x". -/
theorem claim8_witness :
    parseWrapperModel (sectionListDoc
        [itemSectionJson [Json.obj [], Json.obj [("a", Json.num 1)]], contItemJson "x"]) =
      ([Json.obj [], Json.obj [("a", Json.num 1)]], some "x") ∧
    parseWrapperModel
        (sectionListDoc [itemSectionJson [Json.obj [], Json.obj [("a", Json.num 1)]]]) =
      ([Json.obj [], Json.obj [("a", Json.num 1)]], none) :=
  claim8_unwrapper [Json.obj [], Json.obj [("a", Json.num 1)]] "x"
    (by intro j hj; simp at hj; rcases hj with rfl | rfl <;> rfl)

/-- C9: a well-formed video renderer with a title, a thumbnail list and an
object-shaped view-count text normalizes to a Video whose `views` is the
coerced integer of the digit-filtered text (never NaN, never a partial
entity), while the same renderer missing the required `videoId` yields
null. -/
theorem claim9_video_normalizer (vid t s : String) :
    (∃ v : Video, parseItemModel (videoRendererItem vid t s) = some (.video v) ∧
      v.views = some (digitsVal (s.data.filter Char.isDigit)) ∧
      v.name = t ∧ v.id = vid) ∧
    parseItemModel (videoRendererItemNoId t s) = none := by
  constructor
  · have h1 : parseItemModel (videoRendererItem vid t s) =
        (parseVideoModel (vrValue vid t s)).map Item.video := rfl
    have hv : parseIntegerFromTextModel (Json.obj [("simpleText", Json.str s)]) =
        .num (digitsVal (s.data.filter Char.isDigit)) := by
      simp [parseIntegerFromTextModel, parseTextModel, Json.getField, List.find?,
        jsNumber_digitsOnly]
    refine ⟨expectedVideo vid t s, ?_, rfl, rfl, rfl⟩
    rw [h1]
    unfold parseVideoModel
    simp only [vrValue, expectedVideo]
    simp [parseTextModel, Json.getField, List.find?, hv, JsNum.isNaN, Option.any,
      prepImgModel, parseAuthorModel, Json.truthy, baseVideoUrl]
  · rfl

/-- C10: when the caller's `type` is missing or invalid, `checkArgs`
mutates the caller's own options object by setting `type` to "video",
and leaves every other field of that object unchanged. -/
theorem claim10_options_frame (s : String) (options : SearchOptions)
    (n : NormalizedOptions) (o' : SearchOptions)
    (hne : (s == "") = false) (hurl : s.startsWith baseUrl = false)
    (hty : typeValid options.type = false)
    (h : checkArgsModel s options = .ok (n, o')) :
    o'.type = some "video" ∧ o'.safeSearch = options.safeSearch ∧
    o'.limit = options.limit ∧ o'.hl = options.hl ∧ o'.gl = options.gl ∧
    o'.utcOffsetMinutes = options.utcOffsetMinutes ∧
    o'.requestOptions = options.requestOptions := by
  have hcq : computeQuery s = .ok [("search_query", s)] := by
    unfold computeQuery
    simp only [hurl, Bool.false_and]
  unfold checkArgsModel at h
  simp only [hne, hty] at h
  simp only [hcq, Except.ok.injEq, Prod.mk.injEq] at h
  rw [← h.2]
  exact ⟨rfl, rfl, rfl, rfl, rfl, rfl, rfl⟩

/-- C10, witness: concrete options with `type := "bogus"` come back with
`type := "video"` and everything else untouched. -/
theorem claim10_witness :
    claim10Result.2.type = some "video" ∧
    claim10Result.2.safeSearch = claim10Options.safeSearch ∧
    claim10Result.2.limit = claim10Options.limit ∧
    claim10Result.2.hl = claim10Options.hl ∧
    claim10Result.2.gl = claim10Options.gl ∧
    claim10Result.2.utcOffsetMinutes = claim10Options.utcOffsetMinutes ∧
    claim10Result.2.requestOptions = claim10Options.requestOptions :=
  claim10_options_frame "hello" claim10Options claim10Result.1 claim10Result.2
    rfl rfl rfl rfl

end Ytsr
